import Mathlib

/-!
Shallow embedding of the worker/manager core of `chogm.py` (classes `Ogm`,
`Worker`, `Manager` and their methods).

Modelling conventions, each tied to the source:

* `Ogm` (src lines 106-111): three fields initialised to `None` and later
  assigned strings; modelled as `Option String`.  Python truthiness
  (`if fogm.owner:`) is `pyTruthy`: `None` and `""` are falsy.
* A work item sent over the pipe (`Worker.add`, src 145-148) is either a
  filename string or the Python `None` sentinel (`worker.add(None)` in
  `Manager.fire`, src 267); modelled as the inductive `WorkItem`.
* `Worker` (src 113-192) keeps its command, its argument and the ordered
  sequence of items sent into its pipe (`inbox`).  The child-process side
  (`Worker.runner`, src 150-185) is modelled by pure functions:
  `runnerFeed` gives the lines the work-loop prints to the xargs
  subprocess's stdin, in order (src 162-176: break on `None`, break on
  EOFError when the pipe is exhausted, otherwise print the filename), and
  `runnerSend` gives the pair the runner writes back to the parent after
  `xargs.communicate()` (src 181-185:
  `(xargs.returncode, stderrdata.rstrip('\r\n'))`).
* The outcome of the external xargs subprocess is an oracle value
  `SubprocResult` (its return code and raw stderr).  A *spawn failure*
  (`subprocess.Popen` raising in the child, src 159) is the `none` case of
  the per-slot environment: the child process dies before sending anything
  into the pipe, so the parent's `pipe_child.recv()` in `Worker.gohome`
  (src 190) blocks forever - the parent process still holds its own open
  `pipe_parent` handle (the close on src 135 is commented out), so no
  EOFError is ever raised.  `Worker.gohome` therefore returns
  `Option (Int × String)`: `none` models blocking forever on `recv`.
* `Manager` (src 194-271) holds the error flag, the verbose flag, the six
  optional worker slots, and the ordered list of lines it has printed to
  stderr (`errOut`), which models the `print(message, file=sys.stderr)`
  calls of `report_information` / `report_error` (src 240-248).
* `Manager.finish` (src 250-261) fires the six slots in source order;
  `Manager.fire` (src 263-271) is instrumented with the slot name so the
  sequence of actually-shut-down workers can be stated; the extra trace
  component changes nothing about the state evolution.
-/

/-- Python truthiness of an optional string: `None` and `""` are falsy. -/
def pyTruthy : Option String → Bool
  | none => false
  | some s => !s.isEmpty

/-- `str.rstrip('\r\n')`: drop trailing characters drawn from {CR, LF}. -/
def pyRstripCRLF (s : String) : String :=
  String.mk ((s.data.reverse.dropWhile (fun c => c == '\r' || c == '\n')).reverse)

/-- The trailing run of CR/LF characters that `pyRstripCRLF` removes. -/
def crlfSuffix (s : String) : List Char :=
  (s.data.reverse.takeWhile (fun c => c == '\r' || c == '\n')).reverse

/-- `Ogm` stores an owner, group, and mode (src 106-111); fields start as
`None`. -/
structure Ogm where
  owner : Option String
  group : Option String
  mode : Option String
deriving DecidableEq, Repr

/-- An object sent into a worker's pipe: a filename string, or the Python
`None` used as the "no more work" sentinel. -/
inductive WorkItem
  | path (s : String)
  | sentinel
deriving DecidableEq, Repr

/-- Outcome of the external xargs subprocess: `xargs.returncode` and the raw
`stderrdata` captured by `xargs.communicate()` (src 181). -/
structure SubprocResult where
  returncode : Int
  stderrdata : String
deriving DecidableEq, Repr

/-- Parent-side state of a `Worker` (src 125-148): the command, its first
argument, and the ordered sequence of items sent into the child pipe. -/
structure Worker where
  cmd : String
  arg : String
  inbox : List WorkItem
deriving DecidableEq, Repr

/-- `Worker.add` / `self.pipe_child.send(file)` (src 145-148): one more item
enters the pipe, behind everything already sent. -/
def Worker.add (w : Worker) (item : WorkItem) : Worker :=
  { w with inbox := w.inbox ++ [item] }

/-- One iteration of the runner's work-loop (src 162-176): `None` means stop
(`break`); any filename string is printed to the xargs subprocess's stdin. -/
inductive StepAction
  | stop
  | forward (line : String)
deriving DecidableEq, Repr

/-- How the work-loop treats one received item (src 165-174). -/
def runnerStep : WorkItem → StepAction
  | WorkItem.sentinel => StepAction.stop
  | WorkItem.path p => StepAction.forward p

/-- The lines the work-loop writes to the xargs subprocess's stdin, in order
(src 162-176): stop at the sentinel, stop at end of input (EOFError),
otherwise forward the filename. -/
def runnerFeed : List WorkItem → List String
  | [] => []
  | i :: rest =>
    match runnerStep i with
    | StepAction.stop => []
    | StepAction.forward p => p :: runnerFeed rest

/-- The pair the runner sends back to the parent after draining the
subprocess (src 181-185): `(xargs.returncode, stderrdata.rstrip('\r\n'))`. -/
def Worker.runnerSend (res : SubprocResult) : Int × String :=
  (res.returncode, pyRstripCRLF res.stderrdata)

/-- Everything the child process ever writes into the result direction of
the pipe.  If `Popen` succeeded the runner sends exactly one message after
`communicate()`; if `Popen` raised, the child dies before sending anything
(src 159, 181-185). -/
def Worker.childMessages : Option SubprocResult → List (Int × String)
  | none => []
  | some res => [Worker.runnerSend res]

/-- `Worker.gohome` (src 187-192): `pipe_child.recv()` returns the first
message the child sent; if the child never sends one, `recv` blocks forever
(the parent's own `pipe_parent` handle keeps the pipe open, src 135), which
is modelled as `none`. -/
def Worker.gohome (_w : Worker) (msgs : List (Int × String)) : Option (Int × String) :=
  msgs.head?

/-- The six worker slots of the `Manager` (src 202-207), named as in the
source: `fchown` is the file-owner slot, `dchown` the directory-owner slot,
`fchgrp` / `dchgrp` the group slots, `fchmod` / `dchmod` the mode slots. -/
inductive Slot
  | fchown
  | dchown
  | fchgrp
  | dchgrp
  | fchmod
  | dchmod
deriving DecidableEq, Repr

/-- Target class of a slot: the `f*` slots act on files, the `d*` slots on
directories. -/
inductive PathClass
  | file
  | dir
deriving DecidableEq, Repr

def slotClass : Slot → PathClass
  | Slot.fchown => PathClass.file
  | Slot.dchown => PathClass.dir
  | Slot.fchgrp => PathClass.file
  | Slot.dchgrp => PathClass.dir
  | Slot.fchmod => PathClass.file
  | Slot.dchmod => PathClass.dir

/-- The ChangeSpec field governing each slot (src 209-220). -/
def specField (fogm dogm : Ogm) : Slot → Option String
  | Slot.fchown => fogm.owner
  | Slot.dchown => dogm.owner
  | Slot.fchgrp => fogm.group
  | Slot.dchgrp => dogm.group
  | Slot.fchmod => fogm.mode
  | Slot.dchmod => dogm.mode

/-- The command each slot's worker runs (src 210-220). -/
def slotCmd : Slot → String
  | Slot.fchown => "chown"
  | Slot.dchown => "chown"
  | Slot.fchgrp => "chgrp"
  | Slot.dchgrp => "chgrp"
  | Slot.fchmod => "chmod"
  | Slot.dchmod => "chmod"

/-- `Manager` state (src 194-207): the accumulating error flag, the verbose
flag, the lines printed to stderr so far, and the six optional workers. -/
structure Manager where
  haveError : Bool
  verbose : Bool
  errOut : List String
  fchown : Option Worker
  dchown : Option Worker
  fchgrp : Option Worker
  dchgrp : Option Worker
  fchmod : Option Worker
  dchmod : Option Worker
deriving DecidableEq, Repr

def Manager.getSlot (m : Manager) : Slot → Option Worker
  | Slot.fchown => m.fchown
  | Slot.dchown => m.dchown
  | Slot.fchgrp => m.fchgrp
  | Slot.dchgrp => m.dchgrp
  | Slot.fchmod => m.fchmod
  | Slot.dchmod => m.dchmod

/-- `Manager.__init__` (src 196-220): each slot gets a fresh `Worker`
(which, on the child side, spawns the xargs subprocess) iff the
corresponding ChangeSpec field is truthy; otherwise the slot stays `None`.
`(specField ..).getD ""` is the string inside the field, which the truthy
guard guarantees is present and non-empty. -/
def Manager.init (fogm dogm : Ogm) (verbose : Bool) : Manager :=
  { haveError := false
    verbose := verbose
    errOut := []
    fchown := if pyTruthy fogm.owner then
        some ⟨slotCmd Slot.fchown, fogm.owner.getD "", []⟩ else none
    dchown := if pyTruthy dogm.owner then
        some ⟨slotCmd Slot.dchown, dogm.owner.getD "", []⟩ else none
    fchgrp := if pyTruthy fogm.group then
        some ⟨slotCmd Slot.fchgrp, fogm.group.getD "", []⟩ else none
    dchgrp := if pyTruthy dogm.group then
        some ⟨slotCmd Slot.dchgrp, dogm.group.getD "", []⟩ else none
    fchmod := if pyTruthy fogm.mode then
        some ⟨slotCmd Slot.fchmod, fogm.mode.getD "", []⟩ else none
    dchmod := if pyTruthy dogm.mode then
        some ⟨slotCmd Slot.dchmod, dogm.mode.getD "", []⟩ else none }

/-- `Manager.do_file` (src 222-229): send the filename to each existing
file-class worker; directory slots are untouched. -/
def Manager.do_file (m : Manager) (file : String) : Manager :=
  { m with
    fchown := m.fchown.map (fun w => w.add (WorkItem.path file))
    fchgrp := m.fchgrp.map (fun w => w.add (WorkItem.path file))
    fchmod := m.fchmod.map (fun w => w.add (WorkItem.path file)) }

/-- `Manager.do_dir` (src 231-238): send the directory name to each existing
directory-class worker; file slots are untouched. -/
def Manager.do_dir (m : Manager) (file : String) : Manager :=
  { m with
    dchown := m.dchown.map (fun w => w.add (WorkItem.path file))
    dchgrp := m.dchgrp.map (fun w => w.add (WorkItem.path file))
    dchmod := m.dchmod.map (fun w => w.add (WorkItem.path file)) }

/-- `Manager.report_information` (src 240-243): print to stderr only when
verbose; the error flag is untouched. -/
def Manager.report_information (m : Manager) (message : String) : Manager :=
  if m.verbose then { m with errOut := m.errOut ++ [message] } else m

/-- `Manager.report_error` (src 245-248): set the error flag and print the
message to stderr. -/
def Manager.report_error (m : Manager) (message : String) : Manager :=
  { m with haveError := true, errOut := m.errOut ++ [message] }

/-- Per-slot subprocess environment: `some res` when the xargs subprocess of
that slot's worker spawned and finished with outcome `res`; `none` when
`subprocess.Popen` raised in the child (spawn failure). -/
def SlotEnv : Type := Slot → Option SubprocResult

/-- Environment in which every spawn succeeds. -/
def totalEnv (res : Slot → SubprocResult) : SlotEnv :=
  fun s => some (res s)

/-- `Manager.fire` (src 263-271): if the slot has a worker, enqueue the
`None` sentinel, then `gohome` = block on `recv` for the runner's result;
on a nonzero return code, `report_error` with the worker's stderr text.
Returns `none` when `recv` blocks forever (spawn failure), and otherwise the
updated manager plus the singleton trace of the slot that was shut down. -/
def Manager.fire (m : Manager) (s : Slot) (env : SlotEnv) : Option (Manager × List Slot) :=
  match m.getSlot s with
  | none => some (m, [])
  | some w =>
    match (w.add WorkItem.sentinel).gohome (Worker.childMessages (env s)) with
    | none => none
    | some (rtncode, stderrdata) =>
      some ((if rtncode != 0 then m.report_error stderrdata else m), [s])

/-- Fire a list of slots left to right, threading the manager state and
concatenating the shutdown trace; sticks at `none` as soon as one `fire`
blocks, exactly as the sequential calls in `finish` would (src 252-257). -/
def Manager.fireAll (m : Manager) (env : SlotEnv) : List Slot → Option (Manager × List Slot)
  | [] => some (m, [])
  | s :: rest =>
    match m.fire s env with
    | none => none
    | some (m1, t1) =>
      match m1.fireAll env rest with
      | none => none
      | some (m2, t2) => some (m2, t1 ++ t2)

/-- The order in which `Manager.finish` fires the slots (src 252-257):
file owner, directory owner, file group, directory group, file mode,
directory mode. -/
def finishOrder : List Slot :=
  [Slot.fchown, Slot.dchown, Slot.fchgrp, Slot.dchgrp, Slot.fchmod, Slot.dchmod]

/-- `Manager.finish` (src 250-261): fire all six slots in source order, then
return shell code 1 if the error flag is set, else 0.  The result also
carries the final manager state and the shutdown trace; `none` means the
run never returns (a `gohome` blocked forever). -/
def Manager.finish (m : Manager) (env : SlotEnv) : Option (Nat × Manager × List Slot) :=
  match m.fireAll env finishOrder with
  | none => none
  | some (m6, t) => some ((if m6.haveError then 1 else 0), m6, t)

/-- One call the traversal driver (or `finish` itself never - only the
driver) makes into the manager between construction and `finish`:
`examine` and `main` (src 309-342) call `do_file`, `do_dir`,
`report_information` and `report_error`. -/
inductive MOp
  | doFile (p : String)
  | doDir (p : String)
  | info (msg : String)
  | err (msg : String)
deriving DecidableEq, Repr

def MOp.apply (m : Manager) : MOp → Manager
  | MOp.doFile p => m.do_file p
  | MOp.doDir p => m.do_dir p
  | MOp.info msg => m.report_information msg
  | MOp.err msg => m.report_error msg

/-- Run a sequence of driver calls against the manager, left to right. -/
def applyOps (m : Manager) : List MOp → Manager
  | [] => m
  | op :: rest => applyOps (MOp.apply m op) rest

def MOp.isErr : MOp → Bool
  | MOp.err _ => true
  | _ => false

/-! Frame lemmas: which fields each manager operation touches. -/

theorem getSlot_do_file (m : Manager) (p : String) (s : Slot) :
    (m.do_file p).getSlot s =
      if slotClass s = PathClass.file
      then (m.getSlot s).map (fun w => w.add (WorkItem.path p))
      else m.getSlot s := by
  cases s <;> rfl

theorem getSlot_do_dir (m : Manager) (p : String) (s : Slot) :
    (m.do_dir p).getSlot s =
      if slotClass s = PathClass.dir
      then (m.getSlot s).map (fun w => w.add (WorkItem.path p))
      else m.getSlot s := by
  cases s <;> rfl

theorem getSlot_report_error (m : Manager) (msg : String) (s : Slot) :
    (m.report_error msg).getSlot s = m.getSlot s := by
  cases s <;> rfl

theorem getSlot_report_information (m : Manager) (msg : String) (s : Slot) :
    (m.report_information msg).getSlot s = m.getSlot s := by
  unfold Manager.report_information
  split <;> (cases s <;> rfl)

theorem haveError_do_file (m : Manager) (p : String) :
    (m.do_file p).haveError = m.haveError := rfl

theorem haveError_do_dir (m : Manager) (p : String) :
    (m.do_dir p).haveError = m.haveError := rfl

theorem haveError_report_information (m : Manager) (msg : String) :
    (m.report_information msg).haveError = m.haveError := by
  unfold Manager.report_information
  split <;> rfl

theorem haveError_report_error (m : Manager) (msg : String) :
    (m.report_error msg).haveError = true := rfl

theorem getSlot_apply (m : Manager) (op : MOp) (s : Slot) :
    ((MOp.apply m op).getSlot s).isSome = (m.getSlot s).isSome := by
  cases op with
  | doFile p =>
      rw [MOp.apply, getSlot_do_file]
      split <;> simp
  | doDir p =>
      rw [MOp.apply, getSlot_do_dir]
      split <;> simp
  | info msg => rw [MOp.apply, getSlot_report_information]
  | err msg => rw [MOp.apply, getSlot_report_error]

theorem applyOps_getSlot_isSome (ops : List MOp) : ∀ (m : Manager) (s : Slot),
    ((applyOps m ops).getSlot s).isSome = (m.getSlot s).isSome := by
  induction ops with
  | nil => intro m s; rfl
  | cons op rest ih =>
      intro m s
      rw [applyOps, ih, getSlot_apply]

theorem applyOps_haveError (ops : List MOp) : ∀ m : Manager,
    (applyOps m ops).haveError = (m.haveError || ops.any MOp.isErr) := by
  induction ops with
  | nil => intro m; simp [applyOps]
  | cons op rest ih =>
      intro m
      rw [applyOps, ih]
      cases op with
      | doFile p => simp [MOp.apply, haveError_do_file, MOp.isErr]
      | doDir p => simp [MOp.apply, haveError_do_dir, MOp.isErr]
      | info msg => simp [MOp.apply, haveError_report_information, MOp.isErr]
      | err msg => simp [MOp.apply, haveError_report_error, MOp.isErr]

/-! Behaviour of `fire` and `fireAll` when every subprocess spawn succeeds. -/

theorem fire_total (m : Manager) (s : Slot) (res : Slot → SubprocResult) :
    m.fire s (totalEnv res) =
      some ((if ((m.getSlot s).isSome && (res s).returncode != 0)
             then m.report_error (pyRstripCRLF (res s).stderrdata) else m),
            if (m.getSlot s).isSome then [s] else []) := by
  cases h : m.getSlot s with
  | none =>
      simp [Manager.fire, h]
  | some w =>
      simp [Manager.fire, h, totalEnv, Worker.gohome, Worker.childMessages,
        Worker.runnerSend]

theorem errOut_report_error (m : Manager) (msg : String) :
    (m.report_error msg).errOut = m.errOut ++ [msg] := rfl

theorem fireAll_total (res : Slot → SubprocResult) :
    ∀ (l : List Slot) (m : Manager), ∃ mFin : Manager,
      m.fireAll (totalEnv res) l
          = some (mFin, l.filter (fun s => (m.getSlot s).isSome))
      ∧ mFin.haveError
          = (m.haveError
             || l.any (fun s => (m.getSlot s).isSome && (res s).returncode != 0))
      ∧ mFin.errOut
          = m.errOut
            ++ (l.filter (fun s => (m.getSlot s).isSome && (res s).returncode != 0)).map
                 (fun s => pyRstripCRLF (res s).stderrdata)
      ∧ (∀ s, mFin.getSlot s = m.getSlot s) := by
  intro l
  induction l with
  | nil =>
      intro m
      exact ⟨m, by simp [Manager.fireAll], by simp, by simp, fun s => rfl⟩
  | cons s rest ih =>
      intro m
      cases hs : m.getSlot s with
      | none =>
          obtain ⟨mFin, hEq, hErr, hOut, hSlots⟩ := ih m
          refine ⟨mFin, ?_, ?_, ?_, hSlots⟩
          · simp only [Manager.fireAll, Manager.fire, hs, hEq,
              List.filter_cons, Option.isSome_none, Bool.false_and]
            simp
          · rw [hErr, List.any_cons, hs]
            simp
          · rw [hOut, List.filter_cons]
            simp [hs]
      | some w =>
          cases hc : ((res s).returncode != 0) with
          | false =>
              obtain ⟨mFin, hEq, hErr, hOut, hSlots⟩ := ih m
              refine ⟨mFin, ?_, ?_, ?_, hSlots⟩
              · simp only [Manager.fireAll, Manager.fire, hs, totalEnv,
                  Worker.gohome, Worker.childMessages, Worker.runnerSend,
                  List.head?, hc]
                simp only [Bool.false_eq_true, if_false, hEq,
                  List.filter_cons, hs, Option.isSome_some, if_true]
                simp
              · rw [hErr, List.any_cons, hs]
                simp [hc]
              · rw [hOut, List.filter_cons]
                simp [hs, hc]
          | true =>
              obtain ⟨mFin, hEq, hErr, hOut, hSlots⟩ :=
                ih (m.report_error (pyRstripCRLF (res s).stderrdata))
              simp only [getSlot_report_error] at hEq hErr hOut hSlots
              simp only [haveError_report_error] at hErr
              simp only [errOut_report_error] at hOut
              refine ⟨mFin, ?_, ?_, ?_, hSlots⟩
              · simp only [Manager.fireAll, Manager.fire, hs, totalEnv,
                  Worker.gohome, Worker.childMessages, Worker.runnerSend,
                  List.head?, hc]
                simp only [if_true, hEq, List.filter_cons, hs,
                  Option.isSome_some]
                simp
              · rw [hErr, List.any_cons, hs]
                simp [hc]
              · rw [hOut, List.filter_cons]
                simp [hs, hc]

theorem haveError_init (fogm dogm : Ogm) (v : Bool) :
    (Manager.init fogm dogm v).haveError = false := rfl

theorem count_filter_slot (p : Slot → Bool) (a : Slot) (l : List Slot) :
    (l.filter p).count a = if p a then l.count a else 0 := by
  induction l with
  | nil => simp
  | cons b t ih =>
      by_cases hba : b = a
      · subst hba
        cases hpb : p b <;>
          simp [List.filter_cons, hpb, List.count_cons, ih]
      · cases hpb : p b <;>
          simp [List.filter_cons, hpb, List.count_cons, ih, hba, Ne.symm hba]

theorem count_finishOrder (s : Slot) : finishOrder.count s = 1 := by
  cases s <;> decide

/-- C1: the exit code of `Manager.finish` after any run.  Build the manager
from any two ChangeSpecs, apply any sequence of driver calls (`do_file`,
`do_dir`, `report_information`, `report_error`), and let every worker's
subprocess finish with an arbitrary outcome: `finish` returns 1 exactly when
some `report_error` call happened or some created worker's subprocess exited
nonzero, and 0 otherwise, over all combinations of outcomes of the up-to-six
workers. -/
theorem chogm_C1 (fogm dogm : Ogm) (v : Bool) (ops : List MOp)
    (res : Slot → SubprocResult) :
    ((applyOps (Manager.init fogm dogm v) ops).finish (totalEnv res)).map
        (fun r => r.1)
      = some (if (ops.any MOp.isErr
                  || finishOrder.any (fun s =>
                      ((Manager.init fogm dogm v).getSlot s).isSome
                        && (res s).returncode != 0))
              then 1 else 0) := by
  obtain ⟨mFin, hEq, hErr, _, _⟩ :=
    fireAll_total res finishOrder (applyOps (Manager.init fogm dogm v) ops)
  have hslots :
      (fun s => ((applyOps (Manager.init fogm dogm v) ops).getSlot s).isSome
          && (res s).returncode != 0)
        = (fun s => ((Manager.init fogm dogm v).getSlot s).isSome
            && (res s).returncode != 0) := by
    funext s
    rw [applyOps_getSlot_isSome]
  simp only [Manager.finish, hEq, Option.map_some']
  rw [hErr, applyOps_haveError, haveError_init, hslots]
  simp

/-- C2: right after `Manager.__init__`, a slot holds a Worker iff the
ChangeSpec field governing that slot is truthy (neither `None` nor `""`),
and no sequence of driver calls ever changes which slots are occupied: an
absent slot never gains a worker (so it can never spawn a subprocess or
receive a submission), an occupied one never loses its worker. -/
theorem chogm_C2 (fogm dogm : Ogm) (v : Bool) (s : Slot) (ops : List MOp) :
    (((Manager.init fogm dogm v).getSlot s).isSome
        = pyTruthy (specField fogm dogm s))
    ∧ ((applyOps (Manager.init fogm dogm v) ops).getSlot s).isSome
        = pyTruthy (specField fogm dogm s) := by
  have hinit : ((Manager.init fogm dogm v).getSlot s).isSome
      = pyTruthy (specField fogm dogm s) := by
    cases s <;>
      (simp only [Manager.init, Manager.getSlot, specField]
       split <;> simp_all)
  exact ⟨hinit, by rw [applyOps_getSlot_isSome, hinit]⟩

/-- C3: routing by class.  `do_file` sends the path to exactly the existing
file-class workers (each one's inbox grows by that path; directory slots are
untouched), and `do_dir` symmetrically touches exactly the existing
directory-class workers. -/
theorem chogm_C3 (m : Manager) (p : String) (s : Slot) :
    ((m.do_file p).getSlot s =
      if slotClass s = PathClass.file
      then (m.getSlot s).map (fun w => w.add (WorkItem.path p))
      else m.getSlot s)
    ∧ ((m.do_dir p).getSlot s =
      if slotClass s = PathClass.dir
      then (m.getSlot s).map (fun w => w.add (WorkItem.path p))
      else m.getSlot s) :=
  ⟨getSlot_do_file m p s, getSlot_do_dir m p s⟩

/-- C7: error surfacing in `finish`.  Over a full `finish` with every spawn
succeeding, the lines printed to stderr grow by exactly one `report_error`
line per created worker whose subprocess exited nonzero - carrying that
worker's captured (trailing-CR/LF-trimmed) stderr text verbatim, in firing
order - and the error flag ends set iff it was already set or some created
worker exited nonzero; zero-exit workers trigger no `report_error`. -/
theorem chogm_C7 (m : Manager) (res : Slot → SubprocResult) :
    (m.finish (totalEnv res)).map (fun r => (r.2.1.errOut, r.2.1.haveError))
      = some (m.errOut
              ++ (finishOrder.filter (fun s =>
                    (m.getSlot s).isSome && (res s).returncode != 0)).map
                   (fun s => pyRstripCRLF (res s).stderrdata),
              m.haveError
              || finishOrder.any (fun s =>
                   (m.getSlot s).isSome && (res s).returncode != 0)) := by
  obtain ⟨mFin, hEq, hErr, hOut, _⟩ := fireAll_total res finishOrder m
  simp only [Manager.finish, hEq]
  simp [hErr, hOut]

/-- C9: the error flag is owned by `report_error` alone.  `report_error`
sets it and prints its message; `report_information` never touches it and
prints only when verbose; `do_file` and `do_dir` never touch it; collecting
the result of a worker leaves it exactly at `old || (created && nonzero)`,
so a zero-exit worker changes nothing and a set flag is never cleared. -/
theorem chogm_C9 (m : Manager) (msg p : String) (s : Slot)
    (res : Slot → SubprocResult) :
    (m.report_error msg).haveError = true
    ∧ (m.report_error msg).errOut = m.errOut ++ [msg]
    ∧ (m.report_information msg).haveError = m.haveError
    ∧ (m.report_information msg).errOut
        = (if m.verbose then m.errOut ++ [msg] else m.errOut)
    ∧ (m.do_file p).haveError = m.haveError
    ∧ (m.do_dir p).haveError = m.haveError
    ∧ (m.fire s (totalEnv res)).map (fun r => r.1.haveError)
        = some (m.haveError || ((m.getSlot s).isSome && (res s).returncode != 0)) := by
  refine ⟨haveError_report_error m msg, errOut_report_error m msg,
    haveError_report_information m msg, ?_, haveError_do_file m p,
    haveError_do_dir m p, ?_⟩
  · unfold Manager.report_information
    split <;> rfl
  · rw [fire_total]
    cases hc : ((m.getSlot s).isSome && (res s).returncode != 0) <;>
      simp [hc, haveError_report_error]

/-- C10: shutdown order and multiplicity.  With every spawn succeeding,
`finish` shuts workers down in exactly the fixed source order - file owner,
directory owner, file group, directory group, file mode, directory mode -
skipping absent slots, and each created worker appears exactly once in the
shutdown trace (absent slots never appear). -/
theorem chogm_C10 (m : Manager) (res : Slot → SubprocResult) :
    ((m.finish (totalEnv res)).map (fun r => r.2.2)
        = some (finishOrder.filter (fun s => (m.getSlot s).isSome)))
    ∧ ∀ s : Slot,
        (finishOrder.filter (fun t => (m.getSlot t).isSome)).count s
          = if (m.getSlot s).isSome then 1 else 0 := by
  obtain ⟨mFin, hEq, _, _, _⟩ := fireAll_total res finishOrder m
  constructor
  · simp only [Manager.finish, hEq]
    simp
  · intro s
    rw [count_filter_slot, count_finishOrder]

/-! Properties of the trailing-CR/LF trim performed by the runner. -/

theorem takeWhile_all_sat (p : Char → Bool) : ∀ l : List Char,
    (l.takeWhile p).all p = true := by
  intro l
  induction l with
  | nil => rfl
  | cons c t ih =>
      cases hc : p c <;> simp [List.takeWhile_cons, hc, ih]

theorem head_dropWhile_not_sat (p : Char → Bool) : ∀ l : List Char,
    ((l.dropWhile p).head?.all (fun c => !p c)) = true := by
  intro l
  induction l with
  | nil => rfl
  | cons c t ih =>
      cases hc : p c <;> simp [List.dropWhile_cons, hc, ih]

/-- C4: what shutting a worker down hands back.  Once the sentinel is
enqueued and the runner has drained the subprocess (outcome `res`), `gohome`
receives exactly the pair the runner sent: the subprocess's exit code and
its stderr text trimmed of trailing line terminators - the trimmed text plus
the removed all-CR/LF tail reassemble the raw stderr, and the trimmed text
itself no longer ends in CR or LF. -/
theorem chogm_C4 (w : Worker) (res : SubprocResult) :
    (w.add WorkItem.sentinel).gohome (Worker.childMessages (some res))
        = some (res.returncode, pyRstripCRLF res.stderrdata)
    ∧ (pyRstripCRLF res.stderrdata).data ++ crlfSuffix res.stderrdata
        = res.stderrdata.data
    ∧ (crlfSuffix res.stderrdata).all (fun c => c == '\r' || c == '\n') = true
    ∧ ((pyRstripCRLF res.stderrdata).data.getLast?.all
        (fun c => !(c == '\r' || c == '\n'))) = true := by
  refine ⟨rfl, ?_, ?_, ?_⟩
  · simp only [pyRstripCRLF, crlfSuffix]
    rw [← List.reverse_append, List.takeWhile_append_dropWhile,
      List.reverse_reverse]
  · simp only [crlfSuffix, List.all_reverse]
    exact takeWhile_all_sat _ _
  · simp only [pyRstripCRLF, List.getLast?_reverse]
    exact head_dropWhile_not_sat _ _

/-- C5: order preservation within one worker.  Submitting any list of paths
to a fresh worker via `add`, in order, makes the runner's work-loop write
exactly those paths, one per line, in the same order, to the xargs
subprocess's stdin - both before the sentinel arrives and after the sentinel
is enqueued behind them. -/
theorem chogm_C5 (cmd arg : String) (paths : List String) :
    runnerFeed ((paths.foldl (fun w p => w.add (WorkItem.path p))
        (Worker.mk cmd arg [])).inbox) = paths
    ∧ runnerFeed (((paths.foldl (fun w p => w.add (WorkItem.path p))
        (Worker.mk cmd arg [])).add WorkItem.sentinel).inbox) = paths := by
  have hfold : ∀ (ps : List String) (w0 : Worker),
      (ps.foldl (fun w p => w.add (WorkItem.path p)) w0).inbox
        = w0.inbox ++ ps.map WorkItem.path := by
    intro ps
    induction ps with
    | nil => intro w0; simp
    | cons p t ih =>
        intro w0
        rw [List.foldl_cons, ih]
        simp [Worker.add]
  have hfeed : ∀ (ps : List String) (l : List WorkItem),
      runnerFeed (ps.map WorkItem.path ++ l) = ps ++ runnerFeed l := by
    intro ps l
    induction ps with
    | nil => simp
    | cons p t ih => simp [runnerFeed, runnerStep, ih]
  constructor
  · simpa [hfold, runnerFeed] using hfeed paths []
  · show runnerFeed ((paths.foldl (fun w p => w.add (WorkItem.path p))
        (Worker.mk cmd arg [])).inbox ++ [WorkItem.sentinel]) = paths
    simp [hfold, hfeed, runnerFeed, runnerStep]

/-- C8: the sentinel cannot be confused with work.  The work-loop forwards
every path item to the subprocess and never treats it as the stop signal;
only the distinguished sentinel (the Python `None`, a value distinct from
every string, including the empty one) makes the loop stop. -/
theorem chogm_C8 :
    (∀ s : String, runnerStep (WorkItem.path s) = StepAction.forward s)
    ∧ runnerStep WorkItem.sentinel = StepAction.stop
    ∧ (∀ i : WorkItem,
        decide (runnerStep i = StepAction.stop) = decide (i = WorkItem.sentinel))
    ∧ (∀ s : String, decide (WorkItem.sentinel = WorkItem.path s) = false) := by
  refine ⟨fun s => rfl, rfl, ?_, fun s => by simp⟩
  intro i
  cases i <;> simp [runnerStep]

/-- C6: spawn failure is NOT handled as the spec demands - evidence of the
code bug.  Construct the manager from a file spec with owner and group set
(two workers), let the first worker's xargs spawn fail (`Popen` raises in
the child, so the child dies without ever sending a result into the pipe)
while every other spawn succeeds with exit code 0: `finish` evaluates to
`none`, i.e. it blocks forever inside the first `gohome` and never returns
any exit code - even though the second worker was created and is left
waiting, never drained.  The claim instead requires `finish` to complete
and return 1. -/
theorem chogm_C6_spawn_failure_hangs :
    ((Manager.init (Ogm.mk (some "www-data") (some "www-data") none)
        (Ogm.mk none none none) false).finish
        (fun s => match s with
          | Slot.fchown => none
          | _ => some (SubprocResult.mk 0 ""))) = none
    ∧ ((Manager.init (Ogm.mk (some "www-data") (some "www-data") none)
        (Ogm.mk none none none) false).fchgrp).isSome = true := by
  constructor <;> rfl
